import Mathlib

/-!
Verification of the artha-api personal-finance backend.

This file shallowly embeds the algorithmic core of the repository —
the fixed-window rate limiter (src/middleware/rate-limit.ts), the
owner-only authorization gate (src/modules/auth/owner-guard.ts), the
category/transaction services (src/modules/categories/service.ts,
src/modules/transactions/service.ts), the currency conversion
(src/lib/currency.ts) and the dashboard aggregation engine
(src/modules/dashboard/service.ts) — and proves or refutes the
specification claims about them.

Modelling conventions:
* JavaScript epoch-millisecond timestamps are `Nat`.
* JavaScript numbers holding money or counters are `Int`/`Nat`; decimal
  major-unit amounts at the validation boundary are `ℚ` (the embedding
  treats a JS number as the rational it denotes; every concrete input
  used below is far from any float rounding boundary).
* The `Map`/Redis stores are association lists keyed by strings.
* ISO `YYYY-MM-DD` date strings are embedded as `CalDate` triples; for
  four-digit years and zero-padded months/days, lexicographic string
  comparison of such strings coincides with lexicographic comparison of
  the triples, which is what `dateLeB` implements.  A literal bound to a
  Postgres date-typed parameter is validated before any comparison: a
  string that is not a real calendar date fails the whole statement
  (`date/time field value out of range`), which `parseDateLiteral`
  models and the dashboard queries propagate as errors.
-/

namespace Artha

/-! ## Calendar dates (ISO `YYYY-MM-DD` strings as year/month/day triples) -/

structure CalDate where
  year : Nat
  month : Nat
  day : Nat
deriving DecidableEq, Repr

/-- Lexicographic comparison of date triples: the order that `<=` on the
corresponding ISO `YYYY-MM-DD` strings computes (for four-digit years). -/
def dateLeB (a b : CalDate) : Bool :=
  decide (a.year < b.year) ||
    (decide (a.year = b.year) &&
      (decide (a.month < b.month) ||
        (decide (a.month = b.month) && decide (a.day ≤ b.day))))

/-- Number of days of a calendar month (Gregorian), used to state what
"the last calendar day of the month" is. -/
def lastDayOfMonth (year month : Nat) : Nat :=
  if month = 2 then
    if year % 4 = 0 && (year % 100 ≠ 0 || year % 400 = 0) then 29 else 28
  else if month = 4 || month = 6 || month = 9 || month = 11 then 30
  else 31

/-! ## Rate limiter (src/middleware/rate-limit.ts)

`checkRateLimit(key, windowMs, maxRequests)` has two branches: an
in-memory `Map` fallback and an Upstash Redis branch.  `checkRateLimitMem`
embeds the in-memory branch verbatim; `checkRateLimitRedis` embeds the
Redis branch, with Redis `INCR`/`EXPIRE` modelled as an association-list
key-value store with per-key expiry (a key is live while `now < expireAt`).
-/

structure RateLimitRecord where
  count : Nat
  resetTime : Nat
deriving DecidableEq, Repr

structure RateLimitResult where
  allowed : Bool
  remaining : Int
  resetTime : Nat
deriving DecidableEq, Repr

abbrev MemStore := List (String × RateLimitRecord)

def storeGet : MemStore → String → Option RateLimitRecord
  | [], _ => none
  | p :: ps, k => if p.1 = k then some p.2 else storeGet ps k

def storeSet : MemStore → String → RateLimitRecord → MemStore
  | [], k, v => [(k, v)]
  | p :: ps, k, v => if p.1 = k then (k, v) :: ps else p :: storeSet ps k v

/-- The in-memory branch of `checkRateLimit`:
reset when `!record || record.resetTime < now`; deny without increment
when `record.count >= maxRequests`; otherwise `record.count++` and allow
with `remaining = maxRequests - record.count` (post-increment count). -/
def checkRateLimitMem (store : MemStore) (key : String)
    (now windowMs maxRequests : Nat) : RateLimitResult × MemStore :=
  let resetTime := now + windowMs
  match storeGet store key with
  | none =>
      ({ allowed := true, remaining := (maxRequests : Int) - 1, resetTime := resetTime },
        storeSet store key { count := 1, resetTime := resetTime })
  | some record =>
      if record.resetTime < now then
        ({ allowed := true, remaining := (maxRequests : Int) - 1, resetTime := resetTime },
          storeSet store key { count := 1, resetTime := resetTime })
      else if maxRequests ≤ record.count then
        ({ allowed := false, remaining := 0, resetTime := record.resetTime }, store)
      else
        ({ allowed := true, remaining := (maxRequests : Int) - ((record.count : Int) + 1),
            resetTime := resetTime },
          storeSet store key { count := record.count + 1, resetTime := record.resetTime })

structure RedisEntry where
  value : Nat
  expireAt : Option Nat
deriving DecidableEq, Repr

abbrev RedisStore := List (String × RedisEntry)

def redisFind : RedisStore → String → Option RedisEntry
  | [], _ => none
  | p :: ps, k => if p.1 = k then some p.2 else redisFind ps k

def redisLive (e : RedisEntry) (now : Nat) : Bool :=
  match e.expireAt with
  | none => true
  | some t => decide (now < t)

def redisSet : RedisStore → String → RedisEntry → RedisStore
  | [], k, e => [(k, e)]
  | p :: ps, k, e => if p.1 = k then (k, e) :: ps else p :: redisSet ps k e

/-- Redis `INCR`: create the key at 1 (no expiry) when absent or expired,
else increment in place; returns the post-increment value. -/
def redisIncr (r : RedisStore) (k : String) (now : Nat) : Nat × RedisStore :=
  match redisFind r k with
  | some e =>
      if redisLive e now then
        (e.value + 1, redisSet r k { value := e.value + 1, expireAt := e.expireAt })
      else
        (1, redisSet r k { value := 1, expireAt := none })
  | none => (1, redisSet r k { value := 1, expireAt := none })

/-- Redis `EXPIRE key seconds`: sets the key's expiry `seconds` from now. -/
def redisExpire (r : RedisStore) (k : String) (seconds now : Nat) : RedisStore :=
  match redisFind r k with
  | some e => redisSet r k { value := e.value, expireAt := some (now + seconds * 1000) }
  | none => r

/-- The Upstash Redis branch of `checkRateLimit`: unconditional `INCR`,
`EXPIRE` of `ceil(windowMs / 1000)` seconds when the incremented value is
1, `remaining = Math.max(0, maxRequests - count)`,
`allowed = count <= maxRequests`, and the returned `resetTime` is always
the fresh `now + windowMs`. -/
def checkRateLimitRedis (redis : RedisStore) (key : String)
    (now windowMs maxRequests : Nat) : RateLimitResult × RedisStore :=
  let resetTime := now + windowMs
  let countKey := "ratelimit:" ++ key
  let incr := redisIncr redis countKey now
  let redis2 := if incr.1 = 1 then redisExpire incr.2 countKey ((windowMs + 999) / 1000) now
    else incr.2
  let count := incr.1
  ({ allowed := decide (count ≤ maxRequests),
     remaining := max 0 ((maxRequests : Int) - (count : Int)),
     resetTime := resetTime }, redis2)

/-- Runs a sequence of in-memory rate-limit checks at the given times. -/
def runMemCalls (store : MemStore) (key : String) (windowMs maxRequests : Nat) :
    List Nat → List RateLimitResult × MemStore
  | [] => ([], store)
  | now :: rest =>
      let step := checkRateLimitMem store key now windowMs maxRequests
      let tail := runMemCalls step.2 key windowMs maxRequests rest
      (step.1 :: tail.1, tail.2)

/-- Runs a sequence of Redis-backed rate-limit checks at the given times. -/
def runRedisCalls (redis : RedisStore) (key : String) (windowMs maxRequests : Nat) :
    List Nat → List RateLimitResult × RedisStore
  | [] => ([], redis)
  | now :: rest =>
      let step := checkRateLimitRedis redis key now windowMs maxRequests
      let tail := runRedisCalls step.2 key windowMs maxRequests rest
      (step.1 :: tail.1, tail.2)

/-- Modelled from the spec: the fixed-window reference step function of
spec section 4.1, whose reset condition is `now >= resetAt` (the claim's
wording), to be compared with the implementation `checkRateLimitMem`. -/
def specFixedWindowCheck (record : Option RateLimitRecord)
    (now windowMs maxRequests : Nat) : RateLimitResult × RateLimitRecord :=
  match record with
  | none =>
      ({ allowed := true, remaining := (maxRequests : Int) - 1, resetTime := now + windowMs },
        { count := 1, resetTime := now + windowMs })
  | some r =>
      if r.resetTime ≤ now then
        ({ allowed := true, remaining := (maxRequests : Int) - 1, resetTime := now + windowMs },
          { count := 1, resetTime := now + windowMs })
      else if maxRequests ≤ r.count then
        ({ allowed := false, remaining := 0, resetTime := r.resetTime }, r)
      else
        ({ allowed := true, remaining := (maxRequests : Int) - ((r.count : Int) + 1),
            resetTime := r.resetTime },
          { count := r.count + 1, resetTime := r.resetTime })

/-! ## Owner gate (src/modules/auth/owner-guard.ts) -/

structure SessionUser where
  id : String
  email : String
  name : String
deriving DecidableEq, Repr

structure Session where
  user : SessionUser
deriving DecidableEq, Repr

inductive GateOutcome where
  | response (status : Nat) (code : String) (message : String)
  | proceed (ctxSession : Session)
deriving DecidableEq, Repr

/-- The `ownerOnlyMiddleware`: `OWNER_EMAIL` is `process.env.OWNER_EMAIL!`
(an `Option String`: the TypeScript non-null assertion does nothing at
runtime, so an unset variable flows through as `undefined`); a missing
session yields 401 UNAUTHORIZED, `session.user.email !== OWNER_EMAIL`
yields 403 FORBIDDEN (string-vs-undefined comparison is always a
mismatch), and otherwise the session is attached and the handler runs. -/
def ownerOnlyMiddleware (ownerEmail : Option String) (session : Option Session) :
    GateOutcome :=
  match session with
  | none => .response 401 "UNAUTHORIZED" "Authentication required"
  | some s =>
      if some s.user.email ≠ ownerEmail then
        .response 403 "FORBIDDEN" "Access restricted to owner only"
      else
        .proceed s

/-- The module initialisation `const OWNER_EMAIL = process.env.OWNER_EMAIL!`:
it reads the environment variable and performs no runtime check, so it is
total — it cannot fail, whether or not the variable is set.  The `Except`
codomain records the (unused) possibility of a startup failure that the
spec asks for. -/
def ownerEmailInit (env : Option String) : Except String (Option String) :=
  .ok env

/-! ## Data model (src/db/schema.ts)

`categories(id, name, type, created_at)` and
`transactions(id, category_id, amount_cents, description,
transaction_date, ...)`.  Timestamps are irrelevant to the claims and are
omitted; `transaction_date` is a `CalDate` (see the header comment). -/

inductive CategoryKind where
  | income
  | expense
deriving DecidableEq, Repr

structure Category where
  id : String
  name : String
  kind : CategoryKind
deriving DecidableEq, Repr

structure Txn where
  id : String
  categoryId : String
  amountCents : Int
  description : String
  transactionDate : CalDate
deriving DecidableEq, Repr

structure Db where
  categories : List Category
  transactions : List Txn
deriving DecidableEq, Repr

/-- Lookup used by every `leftJoin(categories, eq(transactions.categoryId,
categories.id))`: the joined category row, `none` when no category
matches (SQL NULLs on the right side of the left join). -/
def categoryById (db : Db) (id : String) : Option Category :=
  db.categories.find? (fun c => decide (c.id = id))

structure TxnRow where
  t : Txn
  category : Option Category
deriving DecidableEq, Repr

def joinedRows (db : Db) : List TxnRow :=
  db.transactions.map (fun t => { t := t, category := categoryById db t.categoryId })

/-! ## Currency (src/lib/currency.ts) -/

/-- `dollarsToCents(dollars) = Math.round(dollars * 100)`.  JavaScript
`Math.round x` is `⌊x + 1/2⌋` (round half towards positive infinity);
the JS number is embedded as the rational it denotes. -/
def dollarsToCents (dollars : ℚ) : ℤ := ⌊dollars * 100 + 1/2⌋

/-! ## Generic stable sort used to give `ORDER BY` a concrete executable
meaning (the SQL standard leaves tie order open; the relational contract
`ORDER BY` actually imposes is stated separately where a claim needs it). -/

def orderedInsertB (le : α → α → Bool) (x : α) : List α → List α
  | [] => [x]
  | y :: ys => if le x y then x :: y :: ys else y :: orderedInsertB le x ys

def sortByB (le : α → α → Bool) : List α → List α
  | [] => []
  | x :: xs => orderedInsertB le x (sortByB le xs)

/-! ## Transaction service (src/modules/transactions/service.ts) -/

/-- Query filter accepted by `GET /transactions`
(`transactionFilterSchema`: page ≥ 1, limit ≥ 1 capped at 100, optional
ISO dates, optional category id, optional category kind — the query
parameter named `type`). -/
structure TransactionFilter where
  page : Nat
  limit : Nat
  startDate : Option CalDate
  endDate : Option CalDate
  categoryId : Option String
  kindFilter : Option CategoryKind
deriving DecidableEq, Repr

/-- The four possible members of the `conditions` array built by
`TransactionService.list`; `categoriesTypeEq` is
`eq(categories.type, type)` and is the only condition that references
the `categories` relation. -/
inductive SqlCond where
  | txnDateGe (d : CalDate)
  | txnDateLe (d : CalDate)
  | txnCategoryIdEq (id : String)
  | categoriesTypeEq (k : CategoryKind)
deriving DecidableEq, Repr

def buildListConditions (f : TransactionFilter) : List SqlCond :=
  (match f.startDate with | some d => [SqlCond.txnDateGe d] | none => []) ++
    (match f.endDate with | some d => [SqlCond.txnDateLe d] | none => []) ++
    (match f.categoryId with | some i => [SqlCond.txnCategoryIdEq i] | none => []) ++
    (match f.kindFilter with | some k => [SqlCond.categoriesTypeEq k] | none => [])

/-- WHERE-clause evaluation over a row of the joined
`transactions LEFT JOIN categories` relation; a NULL joined category
makes `categories.type = k` non-true, as in SQL. -/
def evalCondJoined : SqlCond → Txn → Option Category → Bool
  | .txnDateGe d, t, _ => dateLeB d t.transactionDate
  | .txnDateLe d, t, _ => dateLeB t.transactionDate d
  | .txnCategoryIdEq i, t, _ => decide (t.categoryId = i)
  | .categoriesTypeEq k, _, cat =>
      match cat with
      | some c => decide (c.kind = k)
      | none => false

def condNeedsCategories : SqlCond → Bool
  | .categoriesTypeEq _ => true
  | _ => false

/-- The data query of `TransactionService.list`: joined rows, all filter
conditions, `ORDER BY transaction_date DESC`, then
`LIMIT limit OFFSET (page-1)*limit`. -/
def TransactionService.listData (db : Db) (f : TransactionFilter) : List TxnRow :=
  let conds := buildListConditions f
  let rows := (joinedRows db).filter
    (fun r => conds.all (fun c => evalCondJoined c r.t r.category))
  let sorted := sortByB
    (fun a b => dateLeB b.t.transactionDate a.t.transactionDate) rows
  (sorted.drop ((f.page - 1) * f.limit)).take f.limit

/-- The count query of `TransactionService.list`:
`select count(*) from transactions where <conditions>` — issued WITHOUT
the join to `categories`, so a condition referencing `categories.type`
makes the statement unexecutable (Postgres: missing FROM-clause entry). -/
def TransactionService.listCount (db : Db) (f : TransactionFilter) : Except String Nat :=
  let conds := buildListConditions f
  if conds.any condNeedsCategories then
    .error "missing FROM-clause entry for table categories"
  else
    .ok (db.transactions.filter
      (fun t => conds.all (fun c => evalCondJoined c t none))).length

/-- `TransactionService.list`: the page of data together with the total
matching count; an error of either query rejects the whole call. -/
def TransactionService.list (db : Db) (f : TransactionFilter) :
    Except String (List TxnRow × Nat) := do
  let data := TransactionService.listData db f
  let total ← TransactionService.listCount db f
  return (data, total)

/-- Input accepted by `createTransactionSchema` (module schema, given in
the repository documentation): `categoryId` a uuid string, `amount` a
positive decimal of at most 999999999.99, `description` of length 1..500,
`transactionDate` an ISO date. -/
structure CreateTransactionInput where
  categoryId : String
  amount : ℚ
  description : String
  transactionDate : CalDate
deriving DecidableEq, Repr

def createTransactionAccepts (i : CreateTransactionInput) : Bool :=
  decide (0 < i.amount) && decide (i.amount ≤ 99999999999 / 100) &&
    decide (1 ≤ i.description.length) && decide (i.description.length ≤ 500)

/-- `TransactionService.create`: converts the major-unit amount once via
`dollarsToCents` and inserts the row (`newId` stands for the generated
uuid); returns the stored transaction. -/
def TransactionService.create (db : Db) (input : CreateTransactionInput)
    (newId : String) : Db × Txn :=
  let amountCents := dollarsToCents input.amount
  let txn : Txn :=
    { id := newId, categoryId := input.categoryId, amountCents := amountCents,
      description := input.description, transactionDate := input.transactionDate }
  ({ db with transactions := db.transactions ++ [txn] }, txn)

/-! ## Category service (src/modules/categories/service.ts) and its
DELETE route (src/modules/categories/routes.ts) -/

/-- `CategoryService.delete`: count the transactions referencing the
category; when positive return `false` without deleting; otherwise delete
the row and return whether a row was actually removed. -/
def CategoryService.delete (db : Db) (id : String) : Db × Bool :=
  let transactionCount := (db.transactions.filter
    (fun t => decide (t.categoryId = id))).length
  if 0 < transactionCount then (db, false)
  else
    let deletedRows := db.categories.filter (fun c => decide (c.id = id))
    ({ db with categories := db.categories.filter (fun c => decide (¬ c.id = id)) },
      decide (0 < deletedRows.length))

structure ApiError where
  status : Nat
  code : String
  message : String
deriving DecidableEq, Repr

inductive RouteResponse where
  | ok
  | err (e : ApiError)
deriving DecidableEq, Repr

/-- The `DELETE /categories/:id` handler: any `false` from the service is
mapped to the single 400 VALIDATION_ERROR response. -/
def categoriesDeleteRoute (db : Db) (id : String) : Db × RouteResponse :=
  let r := CategoryService.delete db id
  if r.2 then (r.1, .ok)
  else
    (r.1, .err
      ⟨400, "VALIDATION_ERROR", "Cannot delete category with existing transactions"⟩)

/-! ## Dashboard service (src/modules/dashboard/service.ts)

Both dashboard queries compare the Postgres `date` column
`transaction_date` against two interpolated `YYYY-MM-DD` literals.  The
database validates each literal when it is bound to the date-typed
parameter: a string that is not a real calendar date (such as the
`2024-02-31` this service builds for February) makes the statement fail
with `date/time field value out of range` instead of being compared, so
the service call rejects.  `parseDateLiteral` models that validation and
the query functions are `Except`-valued accordingly. -/

/-- Month bounds as `getSummary`/`getByCategory` compute them: the start
string `year-month-01` and the end string `year-month-31` — the end day
is the literal `"31"` irrespective of the month.  These are the raw
interpolated strings (digit triples), not yet validated as dates. -/
def monthPeriodBounds (year month : Nat) : CalDate × CalDate :=
  ({ year := year, month := month, day := 1 }, { year := year, month := month, day := 31 })

def yearPeriodBounds (year : Nat) : CalDate × CalDate :=
  ({ year := year, month := 1, day := 1 }, { year := year, month := 12, day := 31 })

def periodBounds (year : Nat) (month : Option Nat) : CalDate × CalDate :=
  match month with
  | some m => monthPeriodBounds year m
  | none => yearPeriodBounds year

/-- Whether a `YYYY-MM-DD` literal denotes a real calendar date. -/
def isValidDateLiteral (d : CalDate) : Bool :=
  decide (1 ≤ d.month) && decide (d.month ≤ 12) && decide (1 ≤ d.day) &&
    decide (d.day ≤ lastDayOfMonth d.year d.month)

/-- Postgres binding of a `YYYY-MM-DD` literal to a date-typed parameter:
a real calendar date is accepted as itself; anything else fails the
statement with `date/time field value out of range`. -/
def parseDateLiteral (d : CalDate) : Except String CalDate :=
  if isValidDateLiteral d then .ok d else .error "date/time field value out of range"

instance exceptDecidableEq [DecidableEq ε] [DecidableEq α] : DecidableEq (Except ε α) :=
  fun a b =>
    match a, b with
    | .ok x, .ok y =>
        if h : x = y then isTrue (by rw [h]) else isFalse (fun hc => h (Except.ok.inj hc))
    | .error x, .error y =>
        if h : x = y then isTrue (by rw [h])
        else isFalse (fun hc => h (Except.error.inj hc))
    | .ok _, .error _ => isFalse (fun hc => Except.noConfusion hc)
    | .error _, .ok _ => isFalse (fun hc => Except.noConfusion hc)

/-- The shared `dateCondition` once both literals have been accepted:
`gte(transactionDate, start) AND lte(transactionDate, end)`. -/
def inPeriod (bounds : CalDate × CalDate) (d : CalDate) : Bool :=
  dateLeB bounds.1 d && dateLeB d bounds.2

/-- The row set of a dashboard query whose bound literals parsed. -/
def periodRows (db : Db) (year : Nat) (month : Option Nat) : List TxnRow :=
  (joinedRows db).filter (fun r => inPeriod (periodBounds year month) r.t.transactionDate)

/-- SQL aggregate `SUM`: NULL over zero input rows, else the exact sum. -/
def sqlSum (xs : List Int) : Option Int :=
  match xs with
  | [] => none
  | _ => some xs.sum

/-- The summand of `SUM(CASE WHEN categories.type = k THEN amount_cents
ELSE 0 END)` for one joined row. -/
def rowKindAmount (k : CategoryKind) (r : TxnRow) : Int :=
  match r.category with
  | some c => if c.kind = k then r.t.amountCents else 0
  | none => 0

/-- The spec-side total: the exact integer sum of minor-unit amounts of
the period's transactions whose joined category kind is `k`.  Claim
theorems compare the service's conditional SUMs against this. -/
def kindSum (db : Db) (year : Nat) (month : Option Nat) (k : CategoryKind) : Int :=
  (((periodRows db year month).filter
    (fun r => decide ((r.category.map fun c => c.kind) = some k))).map
      (fun r => r.t.amountCents)).sum

structure MonthlySummary where
  year : Nat
  month : Option Nat
  incomeCents : Int
  expenseCents : Int
  balanceCents : Int
deriving DecidableEq, Repr

/-- `DashboardService.getSummary`: the statement binds both date
literals (an invalid one — e.g. the `-31` of a short month — fails it
with `date/time field value out of range`); on success, the two
conditional sums over the period rows with `?? 0` applied to the
possibly-NULL aggregates, and `balanceCents = incomeCents - expenseCents`. -/
def DashboardService.getSummary (db : Db) (year : Nat) (month : Option Nat) :
    Except String MonthlySummary :=
  match parseDateLiteral (periodBounds year month).1,
      parseDateLiteral (periodBounds year month).2 with
  | .ok _, .ok _ =>
      let rows := periodRows db year month
      let incomeCents := (sqlSum (rows.map (rowKindAmount .income))).getD 0
      let expenseCents := (sqlSum (rows.map (rowKindAmount .expense))).getD 0
      .ok ⟨year, month, incomeCents, expenseCents, incomeCents - expenseCents⟩
  | .error msg, _ => .error msg
  | _, .error msg => .error msg

structure CategoryAgg where
  categoryId : Option String
  categoryName : Option String
  kind : Option CategoryKind
  totalCents : Int
  transactionCount : Nat
deriving DecidableEq, Repr

/-- First-occurrence distinct list of `GROUP BY categories.id, name, type`
keys (the whole joined category, `none` for the NULL group).  SQL leaves
the pre-`ORDER BY` group order open; first occurrence is the
determinization used by the executable embedding. -/
def distinctKeys (ks : List (Option Category)) : List (Option Category) :=
  ks.foldl (fun acc k => if k ∈ acc then acc else acc ++ [k]) []

def aggForKey (rows : List TxnRow) (key : Option Category) : CategoryAgg :=
  let group := rows.filter (fun r => decide (r.category = key))
  { categoryId := key.map (fun c => c.id), categoryName := key.map (fun c => c.name),
    kind := key.map (fun c => c.kind),
    totalCents := (group.map (fun r => r.t.amountCents)).sum,
    transactionCount := group.length }

/-- The grouped rows of `getByCategory` before `ORDER BY`. -/
def byCategoryGroups (db : Db) (year : Nat) (month : Option Nat) : List CategoryAgg :=
  let rows := periodRows db year month
  (distinctKeys (rows.map (fun r => r.category))).map (aggForKey rows)

def aggTotalDesc (a b : CategoryAgg) : Bool := decide (b.totalCents ≤ a.totalCents)

structure DashboardByCategory where
  year : Nat
  month : Option Nat
  income : List CategoryAgg
  expense : List CategoryAgg
deriving DecidableEq, Repr

/-- `DashboardService.getByCategory`: the statement binds the same two
date literals (failing identically on an invalid one); on success it
groups, orders by `SUM(amount_cents) DESC` (executable determinization
via the stable `sortByB`), then partitions by the joined category kind. -/
def DashboardService.getByCategory (db : Db) (year : Nat) (month : Option Nat) :
    Except String DashboardByCategory :=
  match parseDateLiteral (periodBounds year month).1,
      parseDateLiteral (periodBounds year month).2 with
  | .ok _, .ok _ =>
      let sorted := sortByB aggTotalDesc (byCategoryGroups db year month)
      .ok ⟨year, month,
        sorted.filter (fun r => decide (r.kind = some .income)),
        sorted.filter (fun r => decide (r.kind = some .expense))⟩
  | .error msg, _ => .error msg
  | _, .error msg => .error msg

/-- What the emitted `ORDER BY SUM(amount_cents) DESC` clause actually
pins down about the returned row order: a permutation of the groups that
is non-increasing in `totalCents`.  The clause names no further sort key,
so any list satisfying this is an admissible database answer. -/
def orderByTotalDescAdmits (groups out : List CategoryAgg) : Prop :=
  out.Perm groups ∧ out.Pairwise (fun a b => b.totalCents ≤ a.totalCents)

/-! ## Concrete fixtures used by the claim theorems -/

/-- The spec's worked example: 100 cents expense on 2024-01-05, 500 cents
income on 2024-01-10, 50 cents expense on 2024-02-01. -/
def dbSummaryExample : Db :=
  ⟨[⟨"cat-salary", "Salary", .income⟩, ⟨"cat-food", "Food", .expense⟩],
   [⟨"t1", "cat-food", 100, "expense of 100 cents", ⟨2024, 1, 5⟩⟩,
    ⟨"t2", "cat-salary", 500, "income of 500 cents", ⟨2024, 1, 10⟩⟩,
    ⟨"t3", "cat-food", 50, "expense of 50 cents", ⟨2024, 2, 1⟩⟩]⟩

def dbListExample : Db :=
  ⟨[⟨"cat-exp", "Food", .expense⟩],
   [⟨"t1", "cat-exp", 100, "lunch", ⟨2024, 1, 5⟩⟩]⟩

def dbByCategoryExample : Db :=
  ⟨[⟨"cat-a", "Groceries", .expense⟩, ⟨"cat-b", "Rent", .expense⟩],
   [⟨"t1", "cat-a", 300, "total 300", ⟨2024, 1, 5⟩⟩,
    ⟨"t2", "cat-b", 700, "total 700", ⟨2024, 1, 10⟩⟩]⟩

def dbByCategoryTie : Db :=
  ⟨[⟨"cat-a", "Groceries", .expense⟩, ⟨"cat-b", "Rent", .expense⟩],
   [⟨"t1", "cat-a", 500, "tie 500", ⟨2024, 1, 5⟩⟩,
    ⟨"t2", "cat-b", 500, "tie 500", ⟨2024, 1, 10⟩⟩]⟩

def c7agg300 : CategoryAgg := ⟨some "cat-a", some "Groceries", some .expense, 300, 1⟩

def c7agg700 : CategoryAgg := ⟨some "cat-b", some "Rent", some .expense, 700, 1⟩

def c7tieA : CategoryAgg := ⟨some "cat-a", some "Groceries", some .expense, 500, 1⟩

def c7tieB : CategoryAgg := ⟨some "cat-b", some "Rent", some .expense, 500, 1⟩

def dbCreateExample : Db := ⟨[⟨"cat-food", "Food", .expense⟩], []⟩

/-- A create input with a positive sub-cent amount: 0.001 major units.
It passes the schema (`positive()` and the upper bound constrain it no
further) yet converts to zero minor units. -/
def c8input : CreateTransactionInput :=
  ⟨"cat-food", 1/1000, "sub-cent amount", ⟨2024, 1, 5⟩⟩

/-! ## Helper lemmas -/

theorem storeGet_storeSet (s : MemStore) (k : String) (v : RateLimitRecord) :
    storeGet (storeSet s k v) k = some v := by
  induction s with
  | nil => simp [storeGet, storeSet]
  | cons p ps ih =>
      by_cases h : p.1 = k
      · simp [storeGet, storeSet, h]
      · simp [storeGet, storeSet, h, ih]

theorem mem_orderedInsertB (le : α → α → Bool) (x a : α) (l : List α) :
    a ∈ orderedInsertB le x l ↔ a = x ∨ a ∈ l := by
  induction l with
  | nil => simp [orderedInsertB]
  | cons y ys ih =>
      simp only [orderedInsertB]
      split
      · simp
      · simp only [List.mem_cons, ih]
        tauto

theorem perm_orderedInsertB (le : α → α → Bool) (x : α) (l : List α) :
    (orderedInsertB le x l).Perm (x :: l) := by
  induction l with
  | nil => simp [orderedInsertB]
  | cons y ys ih =>
      simp only [orderedInsertB]
      split
      · exact List.Perm.refl _
      · exact (ih.cons y).trans (List.Perm.swap x y ys)

theorem perm_sortByB (le : α → α → Bool) (l : List α) : (sortByB le l).Perm l := by
  induction l with
  | nil => simp [sortByB]
  | cons x xs ih => exact (perm_orderedInsertB le x (sortByB le xs)).trans (ih.cons x)

theorem pairwise_orderedInsertB (le : α → α → Bool)
    (htrans : ∀ a b c, le a b = true → le b c = true → le a c = true)
    (htot : ∀ a b, le a b = true ∨ le b a = true) (x : α) (l : List α)
    (h : l.Pairwise (fun a b => le a b = true)) :
    (orderedInsertB le x l).Pairwise (fun a b => le a b = true) := by
  induction l with
  | nil => simp [orderedInsertB]
  | cons y ys ih =>
      rw [List.pairwise_cons] at h
      obtain ⟨hy, hys⟩ := h
      simp only [orderedInsertB]
      split
      · rename_i hxy
        rw [List.pairwise_cons]
        refine ⟨?_, ?_⟩
        · intro b hb
          rcases List.mem_cons.mp hb with hb | hb
          · exact hb ▸ hxy
          · exact htrans x y b hxy (hy b hb)
        · rw [List.pairwise_cons]
          exact ⟨hy, hys⟩
      · rename_i hxy
        have hyx : le y x = true := by
          rcases htot x y with h1 | h1
          · exact absurd h1 hxy
          · exact h1
        rw [List.pairwise_cons]
        refine ⟨?_, ih hys⟩
        intro b hb
        rcases (mem_orderedInsertB le x b ys).mp hb with hb | hb
        · exact hb ▸ hyx
        · exact hy b hb

theorem pairwise_sortByB (le : α → α → Bool)
    (htrans : ∀ a b c, le a b = true → le b c = true → le a c = true)
    (htot : ∀ a b, le a b = true ∨ le b a = true) (l : List α) :
    (sortByB le l).Pairwise (fun a b => le a b = true) := by
  induction l with
  | nil => simp [sortByB]
  | cons x xs ih => exact pairwise_orderedInsertB le htrans htot x _ ih

theorem aggTotalDesc_trans (a b c : CategoryAgg) :
    aggTotalDesc a b = true → aggTotalDesc b c = true → aggTotalDesc a c = true := by
  simp only [aggTotalDesc, decide_eq_true_eq]
  exact fun h1 h2 => le_trans h2 h1

theorem aggTotalDesc_total (a b : CategoryAgg) :
    aggTotalDesc a b = true ∨ aggTotalDesc b a = true := by
  simp only [aggTotalDesc, decide_eq_true_eq]
  exact le_total b.totalCents a.totalCents

theorem sqlSum_getD (xs : List Int) : (sqlSum xs).getD 0 = xs.sum := by
  cases xs <;> simp [sqlSum]

theorem sum_rowKindAmount (k : CategoryKind) (rows : List TxnRow) :
    (rows.map (rowKindAmount k)).sum =
      ((rows.filter
        (fun r => decide ((r.category.map fun c => c.kind) = some k))).map
          (fun r => r.t.amountCents)).sum := by
  induction rows with
  | nil => simp
  | cons r rs ih =>
      rcases hr : r.category with _ | c
      · simp [rowKindAmount, List.filter_cons, hr, ih]
      · by_cases hk : c.kind = k
        · simp [rowKindAmount, List.filter_cons, hr, hk, ih]
        · simp [rowKindAmount, List.filter_cons, hr, hk, ih]

theorem lastDayOfMonth_le_31 (year month : Nat) : lastDayOfMonth year month ≤ 31 := by
  unfold lastDayOfMonth
  repeat' split
  all_goals omega

theorem lastDayOfMonth_ge_28 (year month : Nat) : 28 ≤ lastDayOfMonth year month := by
  unfold lastDayOfMonth
  repeat' split
  all_goals omega

theorem validDateLiteral_start (year month : Nat) (h1 : 1 ≤ month) (h2 : month ≤ 12) :
    isValidDateLiteral ⟨year, month, 1⟩ = true := by
  have h28 := lastDayOfMonth_ge_28 year month
  simp only [isValidDateLiteral, Bool.and_eq_true, decide_eq_true_eq]
  omega

theorem validDateLiteral_end31 (year month : Nat) (h1 : 1 ≤ month) (h2 : month ≤ 12)
    (h31 : lastDayOfMonth year month = 31) :
    isValidDateLiteral ⟨year, month, 31⟩ = true := by
  simp only [isValidDateLiteral, Bool.and_eq_true, decide_eq_true_eq]
  omega

theorem invalidDateLiteral_end31 (year month : Nat)
    (hne : lastDayOfMonth year month ≠ 31) :
    isValidDateLiteral ⟨year, month, 31⟩ = false := by
  have hle := lastDayOfMonth_le_31 year month
  cases h : isValidDateLiteral ⟨year, month, 31⟩
  · rfl
  · exfalso
    simp only [isValidDateLiteral, Bool.and_eq_true, decide_eq_true_eq] at h
    omega

/-- `getSummary` on a period whose two bound literals are valid dates:
the statement executes and returns the conditional sums. -/
theorem getSummary_ok (db : Db) (year : Nat) (month : Option Nat)
    (hs : isValidDateLiteral (periodBounds year month).1 = true)
    (he : isValidDateLiteral (periodBounds year month).2 = true) :
    DashboardService.getSummary db year month = .ok
      ⟨year, month, kindSum db year month .income, kindSum db year month .expense,
        kindSum db year month .income - kindSum db year month .expense⟩ := by
  simp [DashboardService.getSummary, parseDateLiteral, hs, he, kindSum, sqlSum_getD,
    sum_rowKindAmount]

/-- `getSummary` on a month whose `-31` end literal is not a valid date:
the statement fails. -/
theorem getSummary_monthEndError (db : Db) (year month : Nat)
    (he : isValidDateLiteral (periodBounds year (some month)).2 = false) :
    DashboardService.getSummary db year (some month) =
      .error "date/time field value out of range" := by
  cases hs : isValidDateLiteral (periodBounds year (some month)).1 <;>
    simp [DashboardService.getSummary, parseDateLiteral, hs, he]

/-- `getByCategory` on a month whose `-31` end literal is not a valid
date: the statement fails. -/
theorem getByCategory_monthEndError (db : Db) (year month : Nat)
    (he : isValidDateLiteral (periodBounds year (some month)).2 = false) :
    DashboardService.getByCategory db year (some month) =
      .error "date/time field value out of range" := by
  cases hs : isValidDateLiteral (periodBounds year (some month)).1 <;>
    simp [DashboardService.getByCategory, parseDateLiteral, hs, he]

/-- `getByCategory` on a period whose two bound literals are valid dates:
the statement executes and returns the partitioned sorted groups. -/
theorem getByCategory_ok (db : Db) (year : Nat) (month : Option Nat)
    (hs : isValidDateLiteral (periodBounds year month).1 = true)
    (he : isValidDateLiteral (periodBounds year month).2 = true) :
    DashboardService.getByCategory db year month = .ok
      ⟨year, month,
        (sortByB aggTotalDesc (byCategoryGroups db year month)).filter
          (fun r => decide (r.kind = some CategoryKind.income)),
        (sortByB aggTotalDesc (byCategoryGroups db year month)).filter
          (fun r => decide (r.kind = some CategoryKind.expense))⟩ := by
  simp [DashboardService.getByCategory, parseDateLiteral, hs, he]

/-! ## Claim C1 — fixed-window rate limiter -/

/-- C1 counterexample: the claim's reference step resets the window when
`now >= resetAt`, but the in-memory code resets only when
`resetTime < now` (strictly), so at `now = resetAt` with a full window
(count 5 of 5) the reference allows while the code denies; and on the
Redis backend a denied sixth call does increment the stored counter to 6,
although the claim says a denied call leaves the stored count alone. -/
theorem C1_counterexample :
    (specFixedWindowCheck (some ⟨5, 1000⟩) 1000 60000 5).1.allowed = true ∧
    storeGet [("k", ⟨5, 1000⟩)] "k" = some ⟨5, 1000⟩ ∧
    (checkRateLimitMem [("k", ⟨5, 1000⟩)] "k" 1000 60000 5).1.allowed = false ∧
    (redisFind (runRedisCalls [] "k" 60000 5 [0, 0, 0, 0, 0, 0]).2 "ratelimit:k").map
      (fun e => e.value) = some 6 := by
  decide

/-- C1 (amended): the in-memory backend resets a key's record exactly when
no record exists or `resetTime < now` (strictly elapsed, not
`now >= resetAt`), answering allowed with `remaining = maxRequests - 1`;
a full window (`count >= maxRequests`) is denied with `remaining = 0` and
the stored `resetAt`, leaving the store untouched; otherwise the count is
incremented in place and the call is allowed with
`remaining = maxRequests - newCount`.  The Redis backend keeps the count
by unconditional `INCR` with a TTL set at the first increment and returns
a fresh `resetTime = now + windowMs` on every call.  On both backends,
with maxRequests = 5 and windowMs = 60000, five calls in one window are
allowed with remaining 4,3,2,1,0, the sixth is denied with remaining 0,
and a call strictly after the window is allowed again with remaining 4. -/
theorem C1_amended :
    (∀ (store : MemStore) (key : String) (now w maxR : Nat),
      storeGet store key = none →
        (checkRateLimitMem store key now w maxR).1 =
          ⟨true, (maxR : Int) - 1, now + w⟩ ∧
        storeGet (checkRateLimitMem store key now w maxR).2 key = some ⟨1, now + w⟩) ∧
    (∀ (store : MemStore) (key : String) (now w maxR : Nat) (r : RateLimitRecord),
      storeGet store key = some r → r.resetTime < now →
        (checkRateLimitMem store key now w maxR).1 =
          ⟨true, (maxR : Int) - 1, now + w⟩ ∧
        storeGet (checkRateLimitMem store key now w maxR).2 key = some ⟨1, now + w⟩) ∧
    (∀ (store : MemStore) (key : String) (now w maxR : Nat) (r : RateLimitRecord),
      storeGet store key = some r → ¬ r.resetTime < now → maxR ≤ r.count →
        checkRateLimitMem store key now w maxR = (⟨false, 0, r.resetTime⟩, store)) ∧
    (∀ (store : MemStore) (key : String) (now w maxR : Nat) (r : RateLimitRecord),
      storeGet store key = some r → ¬ r.resetTime < now → r.count < maxR →
        (checkRateLimitMem store key now w maxR).1 =
          ⟨true, (maxR : Int) - ((r.count : Int) + 1), now + w⟩ ∧
        storeGet (checkRateLimitMem store key now w maxR).2 key =
          some ⟨r.count + 1, r.resetTime⟩) ∧
    (runMemCalls [] "k" 60000 5 [0, 1, 2, 3, 4, 5, 60001]).1.map
      (fun r => (r.allowed, r.remaining)) =
      [(true, 4), (true, 3), (true, 2), (true, 1), (true, 0), (false, 0), (true, 4)] ∧
    (runRedisCalls [] "k" 60000 5 [0, 1, 2, 3, 4, 5, 60001]).1.map
      (fun r => (r.allowed, r.remaining)) =
      [(true, 4), (true, 3), (true, 2), (true, 1), (true, 0), (false, 0), (true, 4)] := by
  refine ⟨?_, ?_, ?_, ?_, by decide, by decide⟩
  · intro store key now w maxR h
    refine ⟨?_, ?_⟩ <;> simp [checkRateLimitMem, h, storeGet_storeSet]
  · intro store key now w maxR r h hlt
    refine ⟨?_, ?_⟩ <;> simp [checkRateLimitMem, h, hlt, storeGet_storeSet]
  · intro store key now w maxR r h hnlt hge
    simp [checkRateLimitMem, h, hnlt, hge]
  · intro store key now w maxR r h hnlt hcnt
    have hnge : ¬ maxR ≤ r.count := not_le.mpr hcnt
    refine ⟨?_, ?_⟩ <;> simp [checkRateLimitMem, h, hnlt, hnge, storeGet_storeSet]

/-- C1 witness: the amended step rules applied at concrete inputs. -/
theorem C1_amended_witness :
    (checkRateLimitMem [("k", ⟨5, 1000⟩)] "k" 500 60000 5) =
      (⟨false, 0, 1000⟩, [("k", ⟨5, 1000⟩)]) ∧
    (checkRateLimitMem [("k", ⟨2, 1000⟩)] "k" 500 60000 5).1 =
      ⟨true, 2, 60500⟩ := by
  refine ⟨C1_amended.2.2.1 [("k", ⟨5, 1000⟩)] "k" 500 60000 5 ⟨5, 1000⟩
    (by decide) (by decide) (by decide), ?_⟩
  have h := (C1_amended.2.2.2.1 [("k", ⟨2, 1000⟩)] "k" 500 60000 5 ⟨2, 1000⟩
    (by decide) (by decide) (by decide)).1
  simpa using h

/-! ## Claim C2 — owner gate request handling -/

/-- C2: with a configured owner email, a request without a resolvable
session is rejected with 401 UNAUTHORIZED; a resolved session whose user
email is not (case-sensitively) equal to the owner email is rejected with
403 FORBIDDEN; on a match the resolved session is attached to the request
context and the downstream handler runs.  The last conjunct exhibits the
case-sensitivity on a concrete pair differing only in letter case. -/
theorem C2_gate :
    (∀ owner : String,
      ownerOnlyMiddleware (some owner) none =
        .response 401 "UNAUTHORIZED" "Authentication required") ∧
    (∀ (owner : String) (s : Session), s.user.email ≠ owner →
      ownerOnlyMiddleware (some owner) (some s) =
        .response 403 "FORBIDDEN" "Access restricted to owner only") ∧
    (∀ (owner : String) (s : Session), s.user.email = owner →
      ownerOnlyMiddleware (some owner) (some s) = .proceed s) ∧
    ownerOnlyMiddleware (some "Owner@Example.com")
      (some ⟨⟨"u1", "owner@example.com", "Owner"⟩⟩) =
      .response 403 "FORBIDDEN" "Access restricted to owner only" := by
  refine ⟨fun _ => rfl, ?_, ?_, by decide⟩
  · intro owner s h
    simp [ownerOnlyMiddleware, h]
  · intro owner s h
    simp [ownerOnlyMiddleware, h]

/-- C2 witness: the gate rules applied at concrete sessions. -/
theorem C2_gate_witness :
    ownerOnlyMiddleware (some "owner@example.com")
      (some ⟨⟨"u2", "intruder@example.com", "Mallory"⟩⟩) =
      .response 403 "FORBIDDEN" "Access restricted to owner only" ∧
    ownerOnlyMiddleware (some "owner@example.com")
      (some ⟨⟨"u1", "owner@example.com", "Owner"⟩⟩) =
      .proceed ⟨⟨"u1", "owner@example.com", "Owner"⟩⟩ :=
  ⟨C2_gate.2.1 "owner@example.com" ⟨⟨"u2", "intruder@example.com", "Mallory"⟩⟩
      (by decide),
    C2_gate.2.2.1 "owner@example.com" ⟨⟨"u1", "owner@example.com", "Owner"⟩⟩ rfl⟩

/-! ## Claim C9 — behaviour when the owner email is unset -/

/-- C9 counterexample: with `OWNER_EMAIL` unset, module initialisation
still succeeds (the TypeScript `!` assertion performs no runtime check),
and the gate then decides individual requests — a resolvable session gets
a per-request 403 — contradicting the claim that the process refuses to
start instead of deciding requests. -/
theorem C9_counterexample :
    (ownerEmailInit none).isOk = true ∧
    ownerOnlyMiddleware none (some ⟨⟨"u1", "owner@example.com", "Owner"⟩⟩) =
      .response 403 "FORBIDDEN" "Access restricted to owner only" := by
  decide

/-- C9 (amended): when the configured owner email is unset the process
does not fail at startup — `ownerEmailInit` succeeds on every input — and
the gate instead fails closed per request: every request without a
session keeps its 401, and every resolvable session is denied 403,
because a session email (a string) never equals the unset value. -/
theorem C9_amended :
    ownerEmailInit none = Except.ok none ∧
    (∀ env : Option String, (ownerEmailInit env).isOk = true) ∧
    ownerOnlyMiddleware none none =
      .response 401 "UNAUTHORIZED" "Authentication required" ∧
    (∀ s : Session, ownerOnlyMiddleware none (some s) =
      .response 403 "FORBIDDEN" "Access restricted to owner only") := by
  refine ⟨rfl, fun _ => rfl, rfl, ?_⟩
  intro s
  simp [ownerOnlyMiddleware]

/-! ## Claim C3 — summary totals -/

/-- C3 counterexample: the claim quantifies over every optional month,
but for February the engine's fixed `-31` end literal is not a valid
date, so `getSummary` fails with `date/time field value out of range`
instead of returning totals — both for an empty February (where the
claim promises zero totals and no error) and for 2024, whose February
holds a 50-cent expense transaction of the worked example. -/
theorem C3_counterexample :
    DashboardService.getSummary dbSummaryExample 2025 (some 2) =
      .error "date/time field value out of range" ∧
    periodRows dbSummaryExample 2025 (some 2) = [] ∧
    DashboardService.getSummary dbSummaryExample 2024 (some 2) =
      .error "date/time field value out of range" ∧
    periodRows dbSummaryExample 2024 (some 2) ≠ [] := by
  decide

/-- C3 (amended): whenever `getSummary` executes — any full-year call,
and monthly calls for months that have a 31st day — it returns exactly
the integer sum of minor-unit amounts of the period's transactions whose
joined category kind is income (resp. expense), with balance the
difference, and an empty such period yields zero totals (the NULL
aggregate coalesced by `?? 0`); the spec's worked example evaluates as
claimed for both the monthly and the yearly call.  For months without a
31st day the `-31` end literal fails date parsing and `getSummary`
returns the statement error instead of totals. -/
theorem C3_amended :
    (∀ (db : Db) (year : Nat) (month : Option Nat) (s : MonthlySummary),
      DashboardService.getSummary db year month = .ok s →
        s.incomeCents = kindSum db year month .income ∧
        s.expenseCents = kindSum db year month .expense ∧
        s.balanceCents = s.incomeCents - s.expenseCents) ∧
    (∀ (db : Db) (year : Nat),
      (DashboardService.getSummary db year none).isOk = true) ∧
    (∀ (db : Db) (year month : Nat), 1 ≤ month → month ≤ 12 →
      lastDayOfMonth year month = 31 →
      (DashboardService.getSummary db year (some month)).isOk = true) ∧
    (∀ (db : Db) (year month : Nat), 1 ≤ month → month ≤ 12 →
      lastDayOfMonth year month ≠ 31 →
      DashboardService.getSummary db year (some month) =
        .error "date/time field value out of range") ∧
    (∀ (db : Db) (year : Nat) (month : Option Nat) (s : MonthlySummary),
      DashboardService.getSummary db year month = .ok s →
      periodRows db year month = [] →
        s.incomeCents = 0 ∧ s.expenseCents = 0 ∧ s.balanceCents = 0) ∧
    DashboardService.getSummary dbSummaryExample 2024 (some 1) =
      .ok ⟨2024, some 1, 500, 100, 400⟩ ∧
    DashboardService.getSummary dbSummaryExample 2024 none =
      .ok ⟨2024, none, 500, 150, 350⟩ := by
  have hfields : ∀ (db : Db) (year : Nat) (month : Option Nat) (s : MonthlySummary),
      DashboardService.getSummary db year month = .ok s →
        s.incomeCents = kindSum db year month .income ∧
        s.expenseCents = kindSum db year month .expense ∧
        s.balanceCents = s.incomeCents - s.expenseCents := by
    intro db year month s h
    cases hs : parseDateLiteral (periodBounds year month).1 with
    | error m1 => simp [DashboardService.getSummary, hs] at h
    | ok d1 =>
        cases he : parseDateLiteral (periodBounds year month).2 with
        | error m2 => simp [DashboardService.getSummary, hs, he] at h
        | ok d2 =>
            simp only [DashboardService.getSummary, hs, he, Except.ok.injEq] at h
            subst h
            refine ⟨?_, ?_, rfl⟩
            · show (sqlSum ((periodRows db year month).map (rowKindAmount .income))).getD 0 = _
              rw [sqlSum_getD, sum_rowKindAmount, kindSum]
            · show (sqlSum ((periodRows db year month).map (rowKindAmount .expense))).getD 0 = _
              rw [sqlSum_getD, sum_rowKindAmount, kindSum]
  refine ⟨hfields, ?_, ?_, ?_, ?_, by decide, by decide⟩
  · intro db year
    rw [getSummary_ok db year none (validDateLiteral_start year 1 (by omega) (by omega))
      (validDateLiteral_end31 year 12 (by omega) (by omega) rfl)]
    rfl
  · intro db year month h1 h2 h31
    rw [getSummary_ok db year (some month) (validDateLiteral_start year month h1 h2)
      (validDateLiteral_end31 year month h1 h2 h31)]
    rfl
  · intro db year month h1 h2 hne
    exact getSummary_monthEndError db year month (invalidDateLiteral_end31 year month hne)
  · intro db year month s h hrows
    obtain ⟨hi, he, hb⟩ := hfields db year month s h
    simp only [kindSum, hrows, List.filter_nil, List.map_nil, List.sum_nil] at hi he
    refine ⟨hi, he, ?_⟩
    rw [hb, hi, he]
    simp

/-- C3 witness: the amended rules applied at concrete inputs — a 31-day
month executes, a short month fails with the date error. -/
theorem C3_amended_witness :
    DashboardService.getSummary dbSummaryExample 2025 (some 1) =
      .ok ⟨2025, some 1, 0, 0, 0⟩ ∧
    (DashboardService.getSummary dbSummaryExample 2024 (some 3)).isOk = true ∧
    DashboardService.getSummary dbSummaryExample 2024 (some 2) =
      .error "date/time field value out of range" :=
  ⟨by decide,
    C3_amended.2.2.1 dbSummaryExample 2024 3 (by decide) (by decide) (by decide),
    C3_amended.2.2.2.1 dbSummaryExample 2024 2 (by decide) (by decide) (by decide)⟩

/-! ## Claims C4 and C10 — category delete guard -/

/-- C4: deleting a category that is referenced by at least one transaction
is refused with the 400 VALIDATION_ERROR response and leaves the database
unchanged; deleting an existing category with zero referencing
transactions succeeds and removes it. -/
theorem C4_deleteGuard :
    (∀ (db : Db) (id : String),
      0 < (db.transactions.filter (fun t => decide (t.categoryId = id))).length →
        categoriesDeleteRoute db id =
          (db, .err ⟨400, "VALIDATION_ERROR",
            "Cannot delete category with existing transactions"⟩)) ∧
    (∀ (db : Db) (id : String),
      (db.transactions.filter (fun t => decide (t.categoryId = id))).length = 0 →
      (∃ c ∈ db.categories, c.id = id) →
        (categoriesDeleteRoute db id).2 = .ok ∧
        ∀ c ∈ (categoriesDeleteRoute db id).1.categories, c.id ≠ id) := by
  constructor
  · intro db id h
    simp [categoriesDeleteRoute, CategoryService.delete, h]
  · intro db id h hex
    obtain ⟨c, hc, hcid⟩ := hex
    have hmem : c ∈ db.categories.filter (fun c => decide (c.id = id)) :=
      List.mem_filter.mpr ⟨hc, by simp [hcid]⟩
    have hlen : 0 < (db.categories.filter (fun c => decide (c.id = id))).length :=
      List.length_pos.mpr (List.ne_nil_of_mem hmem)
    have hno : ¬ 0 < (db.transactions.filter
        (fun t => decide (t.categoryId = id))).length := by omega
    constructor
    · simp [categoriesDeleteRoute, CategoryService.delete, hno, hlen]
    · intro c2 hc2
      simp only [categoriesDeleteRoute, CategoryService.delete, hno, if_false,
        if_neg hno] at hc2
      revert hc2
      split <;> intro hc2 <;>
        simpa using (List.mem_filter.mp hc2).2

/-- C4 witness: the guard refuses on a referenced category and deletes an
unreferenced one. -/
theorem C4_deleteGuard_witness :
    categoriesDeleteRoute
      ⟨[⟨"cat-food", "Food", .expense⟩],
       [⟨"t1", "cat-food", 100, "lunch", ⟨2024, 1, 5⟩⟩]⟩ "cat-food" =
      (⟨[⟨"cat-food", "Food", .expense⟩],
        [⟨"t1", "cat-food", 100, "lunch", ⟨2024, 1, 5⟩⟩]⟩,
       .err ⟨400, "VALIDATION_ERROR",
         "Cannot delete category with existing transactions"⟩) ∧
    (categoriesDeleteRoute ⟨[⟨"cat-idle", "Idle", .expense⟩], []⟩ "cat-idle").2 = .ok :=
  ⟨C4_deleteGuard.1 _ "cat-food" (by decide),
    (C4_deleteGuard.2 ⟨[⟨"cat-idle", "Idle", .expense⟩], []⟩ "cat-idle" (by decide)
      ⟨⟨"cat-idle", "Idle", .expense⟩, by decide, rfl⟩).1⟩

/-- C10: for a category id with no stored category row (and no referencing
transactions), the service returns false and the DELETE route answers
with the same 400 VALIDATION_ERROR response it gives for a category that
does have transactions — not a 404 — so the two situations are
indistinguishable to the caller. -/
theorem C10_unknownId :
    ∀ (db : Db) (id : String),
      (∀ c ∈ db.categories, c.id ≠ id) →
      (∀ t ∈ db.transactions, t.categoryId ≠ id) →
        (CategoryService.delete db id).2 = false ∧
        (categoriesDeleteRoute db id).2 =
          .err ⟨400, "VALIDATION_ERROR",
            "Cannot delete category with existing transactions"⟩ ∧
        (∀ (db2 : Db) (id2 : String),
          0 < (db2.transactions.filter
            (fun t => decide (t.categoryId = id2))).length →
          (categoriesDeleteRoute db2 id2).2 = (categoriesDeleteRoute db id).2) := by
  intro db id hcat htx
  have htxnil : db.transactions.filter (fun t => decide (t.categoryId = id)) = [] :=
    List.filter_eq_nil_iff.mpr (fun t ht => by simp [htx t ht])
  have hcatnil : db.categories.filter (fun c => decide (c.id = id)) = [] :=
    List.filter_eq_nil_iff.mpr (fun c hc => by simp [hcat c hc])
  refine ⟨?_, ?_, ?_⟩
  · simp [CategoryService.delete, htxnil, hcatnil]
  · simp [categoriesDeleteRoute, CategoryService.delete, htxnil, hcatnil]
  · intro db2 id2 h2
    simp [categoriesDeleteRoute, CategoryService.delete, htxnil, hcatnil, h2]

/-- C10 witness: deleting a nonexistent id on a nonempty database yields
the same response as deleting a category that has transactions. -/
theorem C10_unknownId_witness :
    (CategoryService.delete
      ⟨[⟨"cat-food", "Food", .expense⟩],
       [⟨"t1", "cat-food", 100, "lunch", ⟨2024, 1, 5⟩⟩]⟩ "no-such-id").2 = false ∧
    (categoriesDeleteRoute
      ⟨[⟨"cat-food", "Food", .expense⟩],
       [⟨"t1", "cat-food", 100, "lunch", ⟨2024, 1, 5⟩⟩]⟩ "no-such-id").2 =
      .err ⟨400, "VALIDATION_ERROR",
        "Cannot delete category with existing transactions"⟩ := by
  have h := C10_unknownId
    ⟨[⟨"cat-food", "Food", .expense⟩],
     [⟨"t1", "cat-food", 100, "lunch", ⟨2024, 1, 5⟩⟩]⟩ "no-such-id"
    (by decide) (by decide)
  exact ⟨h.1, h.2.1⟩

/-! ## Claim C5 — aggregation period bounds -/

/-- C5 counterexample: for February 2024 the engine's computed end bound
has day 31, while the last calendar day of February 2024 is the 29th —
the code interpolates the literal "31" instead of the month's length —
and that literal is not even a valid date: binding it to the date-typed
parameter fails the statement. -/
theorem C5_counterexample :
    (periodBounds 2024 (some 2)).2 = ⟨2024, 2, 31⟩ ∧
    lastDayOfMonth 2024 2 = 29 ∧
    (periodBounds 2024 (some 2)).2.day ≠ lastDayOfMonth 2024 2 ∧
    parseDateLiteral ⟨2024, 2, 31⟩ = .error "date/time field value out of range" := by
  decide

/-- C5 (amended): with a month given, the bounds are the strings
`year-month-01` through the fixed `year-month-31` (not the last calendar
day of the month); with no month, Jan 1 through Dec 31.  For months that
have a 31st day both literals are valid dates and the inclusive bounds
admit exactly the month's valid dates (a date within them iff its year
and month match; for the year bounds iff its year matches), so exactly
the period's transactions are aggregated.  For months without a 31st day
the end literal fails date parsing, and both `getSummary` and
`getByCategory` return the statement error instead of aggregating
anything. -/
theorem C5_amended :
    (∀ year month : Nat, periodBounds year (some month) =
      (⟨year, month, 1⟩, ⟨year, month, 31⟩)) ∧
    (∀ year : Nat, periodBounds year none = (⟨year, 1, 1⟩, ⟨year, 12, 31⟩)) ∧
    (∀ year month : Nat, 1 ≤ month → month ≤ 12 → lastDayOfMonth year month = 31 →
      parseDateLiteral (periodBounds year (some month)).1 = .ok ⟨year, month, 1⟩ ∧
      parseDateLiteral (periodBounds year (some month)).2 = .ok ⟨year, month, 31⟩) ∧
    (∀ year month : Nat, lastDayOfMonth year month ≠ 31 →
      parseDateLiteral (periodBounds year (some month)).2 =
        .error "date/time field value out of range" ∧
      (∀ db : Db, DashboardService.getSummary db year (some month) =
        .error "date/time field value out of range") ∧
      (∀ db : Db, DashboardService.getByCategory db year (some month) =
        .error "date/time field value out of range")) ∧
    (∀ (year month : Nat) (d : CalDate),
      1 ≤ d.day → d.day ≤ lastDayOfMonth d.year d.month →
        (inPeriod (periodBounds year (some month)) d = true ↔
          d.year = year ∧ d.month = month)) ∧
    (∀ (year : Nat) (d : CalDate),
      1 ≤ d.month → d.month ≤ 12 → 1 ≤ d.day → d.day ≤ lastDayOfMonth d.year d.month →
        (inPeriod (periodBounds year none) d = true ↔ d.year = year)) ∧
    (∀ (db : Db) (year : Nat) (month : Option Nat),
      periodRows db year month = (joinedRows db).filter
        (fun r => inPeriod (periodBounds year month) r.t.transactionDate)) := by
  refine ⟨fun _ _ => rfl, fun _ => rfl, ?_, ?_, ?_, ?_, fun _ _ _ => rfl⟩
  · intro year month h1 h2 h31
    constructor
    · simp [parseDateLiteral, periodBounds, monthPeriodBounds,
        validDateLiteral_start year month h1 h2]
    · simp [parseDateLiteral, periodBounds, monthPeriodBounds,
        validDateLiteral_end31 year month h1 h2 h31]
  · intro year month hne
    have he := invalidDateLiteral_end31 year month hne
    refine ⟨by simp [parseDateLiteral, periodBounds, monthPeriodBounds, he], ?_, ?_⟩
    · exact fun db => getSummary_monthEndError db year month he
    · exact fun db => getByCategory_monthEndError db year month he
  · intro year month d h1 h2
    have h31 := lastDayOfMonth_le_31 d.year d.month
    simp only [periodBounds, monthPeriodBounds, inPeriod, dateLeB,
      Bool.and_eq_true, Bool.or_eq_true, decide_eq_true_eq]
    omega
  · intro year d hm1 hm2 h1 h2
    have h31 := lastDayOfMonth_le_31 d.year d.month
    simp only [periodBounds, yearPeriodBounds, inPeriod, dateLeB,
      Bool.and_eq_true, Bool.or_eq_true, decide_eq_true_eq]
    omega

/-- C5 witness: the amended characterisations applied to concrete
inputs — January's bounds parse and admit its dates, a valid date is
admitted by its own year's bounds, and April's fixed-31 end bound makes
the summary statement fail. -/
theorem C5_amended_witness :
    parseDateLiteral (periodBounds 2024 (some 1)).2 = .ok ⟨2024, 1, 31⟩ ∧
    inPeriod (periodBounds 2024 (some 1)) ⟨2024, 1, 5⟩ = true ∧
    inPeriod (periodBounds 2024 none) ⟨2024, 4, 30⟩ = true ∧
    DashboardService.getSummary dbSummaryExample 2024 (some 4) =
      .error "date/time field value out of range" :=
  ⟨(C5_amended.2.2.1 2024 1 (by decide) (by decide) (by decide)).2,
    (C5_amended.2.2.2.2.1 2024 1 ⟨2024, 1, 5⟩ (by decide) (by decide)).mpr ⟨rfl, rfl⟩,
    (C5_amended.2.2.2.2.2.1 2024 ⟨2024, 4, 30⟩ (by decide) (by decide) (by decide)
      (by decide)).mpr rfl,
    (C5_amended.2.2.2.1 2024 4 (by decide)).2.1 dbSummaryExample⟩

/-! ## Claim C6 — transaction list total with the category-kind filter -/

/-- C6 at the failing input: a filter that includes the category kind
(query parameter `type`) produces a count query whose WHERE clause
references `categories.type` although the count query never joins
`categories`, so the count statement cannot be executed and `list` fails
instead of returning a total; the data query of the very same call (which
does join) would succeed, and without the kind filter the count is the
correct matching total. -/
theorem C6_bug :
    buildListConditions ⟨1, 10, none, none, none, some .expense⟩ =
      [SqlCond.categoriesTypeEq .expense] ∧
    TransactionService.listData dbListExample ⟨1, 10, none, none, none, some .expense⟩ =
      [⟨⟨"t1", "cat-exp", 100, "lunch", ⟨2024, 1, 5⟩⟩,
        some ⟨"cat-exp", "Food", .expense⟩⟩] ∧
    TransactionService.listCount dbListExample ⟨1, 10, none, none, none, some .expense⟩ =
      .error "missing FROM-clause entry for table categories" ∧
    TransactionService.list dbListExample ⟨1, 10, none, none, none, some .expense⟩ =
      .error "missing FROM-clause entry for table categories" ∧
    TransactionService.list dbListExample ⟨1, 10, none, none, none, none⟩ =
      .ok ([⟨⟨"t1", "cat-exp", 100, "lunch", ⟨2024, 1, 5⟩⟩,
        some ⟨"cat-exp", "Food", .expense⟩⟩], 1) :=
  ⟨rfl, rfl, rfl, rfl, rfl⟩

/-! ## Claim C7 — by-category ordering -/

/-- C7 counterexample: the emitted ordering clause is
`ORDER BY SUM(amount_cents) DESC` with no secondary key, so on two
categories with equal 500-cent totals it admits both orders of the same
group rows — the query does not determine the output on ties, against the
claim that the output is deterministic via a secondary sort key. -/
theorem C7_counterexample :
    orderByTotalDescAdmits (byCategoryGroups dbByCategoryTie 2024 (some 1))
      [c7tieA, c7tieB] ∧
    orderByTotalDescAdmits (byCategoryGroups dbByCategoryTie 2024 (some 1))
      [c7tieB, c7tieA] ∧
    ([c7tieA, c7tieB] : List CategoryAgg) ≠ [c7tieB, c7tieA] :=
  ⟨⟨by decide, by decide⟩, ⟨by decide, by decide⟩, by decide⟩

/-- C7 (amended): whenever `byCategory` executes — any full-year call,
and monthly calls for months with a 31st day — both returned lists are
sorted by total amount in minor units descending, and the executable
embedding's answer is one admissible answer of the ordering clause; with
distinct totals 300 and 700 the order is fully determined and the
700-total category comes first.  For months without a 31st day the call
fails on the invalid end-date literal and returns no lists.  The clause
itself names no tie-breaking key, so equal-total order is left to the
database rather than being deterministic by a secondary sort key. -/
theorem C7_amended :
    (∀ (db : Db) (year : Nat) (month : Option Nat) (out : DashboardByCategory),
      DashboardService.getByCategory db year month = .ok out →
        out.income.Pairwise (fun a b => b.totalCents ≤ a.totalCents) ∧
        out.expense.Pairwise (fun a b => b.totalCents ≤ a.totalCents)) ∧
    (∀ (db : Db) (year month : Nat), lastDayOfMonth year month ≠ 31 →
      DashboardService.getByCategory db year (some month) =
        .error "date/time field value out of range") ∧
    (∀ (db : Db) (year : Nat),
      (DashboardService.getByCategory db year none).isOk = true) ∧
    (∀ (db : Db) (year : Nat) (month : Option Nat),
      orderByTotalDescAdmits (byCategoryGroups db year month)
        (sortByB aggTotalDesc (byCategoryGroups db year month))) ∧
    DashboardService.getByCategory dbByCategoryExample 2024 (some 1) =
      .ok ⟨2024, some 1, [], [c7agg700, c7agg300]⟩ := by
  have hsorted : ∀ l : List CategoryAgg,
      (sortByB aggTotalDesc l).Pairwise (fun a b => b.totalCents ≤ a.totalCents) := by
    intro l
    exact (pairwise_sortByB aggTotalDesc aggTotalDesc_trans aggTotalDesc_total l).imp
      (fun h => by simpa [aggTotalDesc] using h)
  refine ⟨?_, ?_, ?_, ?_, by decide⟩
  · intro db year month out h
    cases hs : parseDateLiteral (periodBounds year month).1 with
    | error m1 => simp [DashboardService.getByCategory, hs] at h
    | ok d1 =>
        cases he : parseDateLiteral (periodBounds year month).2 with
        | error m2 => simp [DashboardService.getByCategory, hs, he] at h
        | ok d2 =>
            simp only [DashboardService.getByCategory, hs, he, Except.ok.injEq] at h
            subst h
            constructor
            · exact List.Pairwise.sublist (List.filter_sublist _) (hsorted _)
            · exact List.Pairwise.sublist (List.filter_sublist _) (hsorted _)
  · intro db year month hne
    exact getByCategory_monthEndError db year month (invalidDateLiteral_end31 year month hne)
  · intro db year
    rw [getByCategory_ok db year none (validDateLiteral_start year 1 (by omega) (by omega))
      (validDateLiteral_end31 year 12 (by omega) (by omega) rfl)]
    rfl
  · intro db year month
    exact ⟨perm_sortByB aggTotalDesc _, hsorted _⟩

/-- C7 witness: the amended rules applied at concrete inputs — the
executed January call yields the descending expense list, and April's
call fails on the invalid end-date literal. -/
theorem C7_amended_witness :
    ([c7agg700, c7agg300] : List CategoryAgg).Pairwise
      (fun a b => b.totalCents ≤ a.totalCents) ∧
    DashboardService.getByCategory dbByCategoryExample 2024 (some 4) =
      .error "date/time field value out of range" :=
  ⟨(C7_amended.1 dbByCategoryExample 2024 (some 1)
      ⟨2024, some 1, [], [c7agg700, c7agg300]⟩ (by decide)).2,
    C7_amended.2.1 dbByCategoryExample 2024 4 (by decide)⟩

/-! ## Claim C8 — minor-unit conversion at the write boundary -/

/-- C8 at the failing input: the write boundary accepts the positive
amount 0.001, `dollarsToCents` rounds `0.001 * 100` to 0, and the created
row is stored with `amountCents = 0` — a non-positive stored amount,
although the repository's own documents require stored amounts to be
positive integer cents (`CHECK (amount_cents > 0)` in the schema plan). -/
theorem C8_bug :
    createTransactionAccepts c8input = true ∧
    dollarsToCents (1/1000) = 0 ∧
    (TransactionService.create dbCreateExample c8input "t-new").2.amountCents = 0 ∧
    (TransactionService.create dbCreateExample c8input "t-new").1.transactions =
      [⟨"t-new", "cat-food", 0, "sub-cent amount", ⟨2024, 1, 5⟩⟩] := by
  have hc : dollarsToCents (1/1000) = 0 := by norm_num [dollarsToCents]
  refine ⟨?_, hc, ?_, ?_⟩
  · simp only [createTransactionAccepts, Bool.and_eq_true, decide_eq_true_eq]
    refine ⟨⟨⟨by norm_num [c8input], by norm_num [c8input]⟩, by decide⟩, by decide⟩
  · simp only [TransactionService.create, c8input]
    norm_num [dollarsToCents]
  · simp only [TransactionService.create, dbCreateExample, c8input]
    norm_num [dollarsToCents]

end Artha
